import Mathlib

/-!
Shallow embedding of the core of `steam-cli` (Rust): the reference-dictionary
store, the detail cache (`src/store.rs`), the HTML search-result extractor and
JSON detail normalizer (`src/steam.rs`), and the cached detail-lookup flow
(`src/main.rs`).  Rust strings are modelled as Lean `String`; Rust `i64` as
`Int` with explicit range checks where the source checks overflow; SQLite
tables as Lean lists of rows; fallible Rust functions returning
`Result<_, AppError>` as `Except AppError _`.  Character classification
(`is_alphanumeric`, lower-casing, whitespace) is modelled with the Lean
ASCII-oriented `Char` predicates, a faithful restriction of the Unicode
versions in Rust to the ASCII plane.
-/

namespace SteamCli

/-- Errors of `src/error.rs` (`AppError`). -/
inductive AppError where
  | invalidArgument (msg : String)
  | network (msg : String)
  | upstreamSchema (msg : String)
  | notFound (msg : String)
  | unauthorized (msg : String)
  | rateLimit (msg : String)
  | database (msg : String)
  | internal (msg : String)
deriving DecidableEq, Repr

/-! ## Character and string helpers modelling Rust `str` operations -/

/-- Byte-wise (code-point-wise) lexicographic `≤` on char lists: the order
that the SQLite default BINARY collation induces on UTF-8 encoded names. -/
def lexLe : List Char → List Char → Bool
  | [], _ => true
  | _ :: _, [] => false
  | a :: as, b :: bs =>
    if a.toNat < b.toNat then true
    else if b.toNat < a.toNat then false
    else lexLe as bs

/-- String comparison used to model SQL `ORDER BY name ASC`. -/
def strLe (a b : String) : Bool := lexLe a.toList b.toList

/-- Model of Rust `i64::from_str` (`"42".parse::<i64>()`): optional sign, one
or more ASCII digits, result must fit in `i64`. -/
def parseI64 (s : String) : Option Int :=
  let cs := s.toList
  let signAndDigits : Int × List Char :=
    match cs with
    | '+' :: rest => (1, rest)
    | '-' :: rest => (-1, rest)
    | _ => (1, cs)
  let sign := signAndDigits.1
  let digits := signAndDigits.2
  if digits.isEmpty || digits.any (fun c => !c.isDigit) then none
  else
    let mag : Int := digits.foldl (fun acc c => acc * 10 + (c.toNat - '0'.toNat)) 0
    let n := sign * mag
    if -(2 ^ 63) ≤ n ∧ n < 2 ^ 63 then some n else none

/-- Model of Rust `str::trim` (strip leading and trailing whitespace). -/
def rustTrim (s : String) : String :=
  String.mk (((s.toList.dropWhile Char.isWhitespace).reverse.dropWhile
    Char.isWhitespace).reverse)

/-- Model of `s.split_whitespace().collect::<Vec<_>>().join(" ")`:
collapse internal whitespace runs to single spaces. -/
def collapseWs (s : String) : String :=
  String.intercalate " "
    (((s.toList.splitOnP Char.isWhitespace).map String.mk).filter (fun t => t ≠ ""))

/-- Model of Rust `str::to_lowercase` restricted to ASCII. -/
def rustToLower (s : String) : String := String.mk (s.toList.map Char.toLower)

/-! ## JSON values (model of `serde_json::Value`)

`num n` is a JSON number holding the integer `n` (stored by serde as `i64`,
`u64` or an integral `f64`); `fnum` stands for any non-integral number, on
which `as_i64` always fails. -/

inductive Value where
  | null
  | bool (b : Bool)
  | num (n : Int)
  | fnum
  | str (s : String)
  | arr (xs : List Value)
  | obj (fields : List (String × Value))

/-- Model of `serde_json::Value::get(key)` on objects (the serde map has unique
keys after parsing, so first-match lookup is faithful). -/
def Value.get : Value → String → Option Value
  | .obj fields, k => (fields.find? (fun p => p.1 == k)).map (·.2)
  | _, _ => none

/-- Model of `Value::as_i64`: integral numbers representable as `i64`. -/
def Value.as_i64 : Value → Option Int
  | .num n => if -(2 ^ 63) ≤ n ∧ n < 2 ^ 63 then some n else none
  | _ => none

/-- Model of `Value::as_bool`. -/
def Value.as_bool : Value → Option Bool
  | .bool b => some b
  | _ => none

/-- Model of `Value::as_str`. -/
def Value.as_str : Value → Option String
  | .str s => some s
  | _ => none

/-! ## Data model (`src/models.rs`) -/

/-- `DictItem` of `src/models.rs`. -/
structure DictItem where
  id : String
  name : String
deriving DecidableEq, Repr

/-- `DictFindItem` of `src/models.rs`. -/
structure DictFindItem where
  id : String
  name : String
  rank : Float

/-- `SearchItem` of `src/models.rs`. -/
structure SearchItem where
  appid : Int
  name : String
  price : Option String
deriving DecidableEq, Repr

/-- `TagFacet` of `src/models.rs`. -/
structure TagFacet where
  tagid : Int
  count : Int
  selected : Bool
deriving DecidableEq, Repr

/-! ## Detail cache (`src/store.rs`, table `app_cache`)

The table is modelled as a list of rows `(appid, payload_json, fetched_at)`;
`appid` is the primary key, so well-formed states have pairwise distinct
`appid`s. -/

/-- One row of the `app_cache` table. -/
structure CacheRow where
  appid : Int
  payload_json : String
  fetched_at : Int
deriving DecidableEq, Repr

/-- Model of `LocalStore::get_cached_app`: first row with
`appid = ? AND fetched_at >= ?`, projected to `payload_json`.  The read
leaves the table untouched (the model returns no new state). -/
def get_cached_app (cache : List CacheRow) (appid min_fetched_at : Int) :
    Option String :=
  (cache.find? (fun r => r.appid == appid && min_fetched_at ≤ r.fetched_at)).map
    (·.payload_json)

/-- Model of `LocalStore::put_cached_app`: `INSERT .. ON CONFLICT(appid) DO
UPDATE` — update the row for `appid` in place, or append a fresh row. -/
def put_cached_app (cache : List CacheRow) (appid : Int) (payload_json : String)
    (fetched_at : Int) : List CacheRow :=
  if cache.any (fun r => r.appid == appid) then
    cache.map (fun r => if r.appid == appid then ⟨appid, payload_json, fetched_at⟩ else r)
  else
    cache ++ [⟨appid, payload_json, fetched_at⟩]

/-! ## Detail normalizer (`src/steam.rs`) -/

/-- `AppDetailsOut` of `src/models.rs`. -/
structure AppDetailsOut where
  appid : Int
  name : String
  short_description : Option String
  categories : List DictItem
  genres : List DictItem
  supported_languages : Option String
  platforms : Value
  release_date : Option String
  price_overview : Option Value

/-- Model of `parse_id_description_list` (`src/steam.rs`): keep, in order,
exactly the array elements carrying an integer `id` and a string
`description`; anything else (including a non-array or absent input) is
dropped. -/
def parse_id_description_elem (item : Value) : Option DictItem := do
  let idv ← item.get "id"
  let idn ← idv.as_i64
  let dv ← item.get "description"
  let ds ← dv.as_str
  some { id := toString idn, name := ds }

def parse_id_description_list (value : Option Value) : List DictItem :=
  match value with
  | some (.arr items) => items.filterMap parse_id_description_elem
  | _ => []

/-- Model of `normalize_appdetails` (`src/steam.rs`).  The `root` argument is
the outcome of `serde_json::from_str(raw_json)`; a parse error is mapped to
`UpstreamSchema` exactly as in the source. -/
def normalize_appdetails (appid : Int) (root : Except String Value) :
    Except AppError AppDetailsOut :=
  match root with
  | .error e => .error (.upstreamSchema e)
  | .ok root =>
    match root.get (toString appid) with
    | none => .error (.upstreamSchema "appid key missing in appdetails")
    | some obj =>
      let success := ((obj.get "success").bind Value.as_bool).getD false
      if !success then
        .error (.notFound ("appid " ++ toString appid ++ " not found"))
      else
        match obj.get "data" with
        | none => .error (.upstreamSchema "appdetails data missing")
        | some data =>
          .ok {
            appid := appid
            name := ((data.get "name").bind Value.as_str).getD "Unknown"
            short_description := (data.get "short_description").bind Value.as_str
            categories := parse_id_description_list (data.get "categories")
            genres := parse_id_description_list (data.get "genres")
            supported_languages := (data.get "supported_languages").bind
              Value.as_str
            platforms := (data.get "platforms").getD Value.null
            release_date := ((data.get "release_date").bind
              (fun v => v.get "date")).bind Value.as_str
            price_overview := data.get "price_overview" }

/-! ## Facet extraction (`src/steam.rs`)

The regex `PopulateTagFacetData\(\s*(\[[^\)]*\])\s*,\s*(\[[^\)]*\])` is
modelled directly over char lists with leftmost-match, greedy-with-backtracking
semantics: at the first position where the literal signature
`PopulateTagFacetData(` is followed by whitespace, a bracketed run of
non-`)` characters closed by `]`, `\s*,\s*`, and a second such bracketed run,
the two bracketed fragments are captured. -/

/-- The literal part `PopulateTagFacetData\(` of the facet regex. -/
def facetSig : List Char := "PopulateTagFacetData(".toList

/-- Candidate end positions for `[^\)]*\]` after an opening `[`: indices `j`
with `rest[j] = ']'` preceded only by non-`)` characters, greedy
(largest) first. -/
def bracketEnds (rest : List Char) : List Nat :=
  let limit := (rest.takeWhile (fun c => c ≠ ')')).length
  ((List.range limit).filter (fun j => rest.get? j = some ']')).reverse

/-- Match `\s*(\[[^\)]*\])` at the front of `cs`; return the capture (brackets
included) and the remaining input, greedy candidates first. -/
def matchBracket (cs : List Char) : List (String × List Char) :=
  let cs := cs.dropWhile Char.isWhitespace
  match cs with
  | '[' :: rest =>
    (bracketEnds rest).map (fun j =>
      (String.mk ('[' :: (rest.take j ++ [']'])), rest.drop (j + 1)))
  | _ => []

/-- Match `\s*(\[[^\)]*\])\s*,\s*(\[[^\)]*\])` at the front of `cs`
(the part of the facet regex after the literal signature), backtracking over
the greedy candidates of the first capture. -/
def matchFacetArgs (cs : List Char) : Option (String × String) :=
  (matchBracket cs).findSome? (fun c1 =>
    let after := c1.2.dropWhile Char.isWhitespace
    match after with
    | ',' :: r2 =>
      match matchBracket r2 with
      | [] => none
      | c2 :: _ => some (c1.1, c2.1)
    | _ => none)

/-- Leftmost match of the whole facet regex over the document. -/
def scanFacetCall : List Char → Option (String × String)
  | [] => none
  | c :: rest =>
    if facetSig.isPrefixOf (c :: rest) then
      match matchFacetArgs ((c :: rest).drop facetSig.length) with
      | some caps => some caps
      | none => scanFacetCall rest
    else scanFacetCall rest

/-- Model of `value_to_i64` (`src/steam.rs`). -/
def value_to_i64 (v : Value) : Option Int :=
  match v.as_i64 with
  | some i => some i
  | none =>
    match v.as_str with
    | some s => parseI64 s
    | none => none

/-- The per-pair step of `parse_tag_facets`: the length-2 check and the two
integer coercions, dropping the pair on any failure. -/
def facet_of_pair (selected_tags : List Int) (pair : List Value) :
    Option TagFacet :=
  match pair with
  | [a, b] => do
    let tagid ← value_to_i64 a
    let count ← value_to_i64 b
    some { tagid := tagid, count := count,
           selected := selected_tags.contains tagid }
  | _ => none

/-- Model of `parse_tag_facets` (`src/steam.rs`).  `serdeParse` stands for
`serde_json::from_str::<Vec<Vec<Value>>>` applied to the captured first
fragment (the JSON text parser is an external library passed in as an
oracle). -/
def parse_tag_facets (serdeParse : String → Except String (List (List Value)))
    (html_text : String) (selected_tags : List Int) :
    Except AppError (List TagFacet) :=
  match scanFacetCall html_text.toList with
  | none => .error (.upstreamSchema "facets block not found in search HTML")
  | some caps =>
    match serdeParse caps.1 with
    | .error e => .error (.upstreamSchema ("facet parse failed: " ++ e))
    | .ok parsed => .ok (parsed.filterMap (facet_of_pair selected_tags))

/-! ## Search-result row extraction (`src/steam.rs`)

The HTML parser and CSS selectors of the `scraper` crate are abstracted at
the DOM level: the document is given as the list of elements matching
`a.search_result_row`, in document order; for each such element,
`attr_appid` is its `data-ds-appid` attribute, `title` the text pieces of
its first `span.title` descendant (absent when no such descendant exists),
and `price` the text pieces of its first
`div.discount_final_price, div.search_price` descendant. -/

/-- DOM-level view of one `a.search_result_row` element. -/
structure RowElem where
  attr_appid : Option String
  title : Option (List String)
  price : Option (List String)

/-- Model of the row loop of `parse_search_html`: rows without a parsable
numeric `data-ds-appid` are skipped; the title text is concatenated, trimmed
and replaced by `"Unknown"` when absent or empty; the price text is
whitespace-collapsed and dropped when empty. -/
def extract_row (row : RowElem) : Option SearchItem := do
  let appid_raw ← row.attr_appid
  let appid ← parseI64 appid_raw
  let name := ((row.title.map (fun ts => rustTrim (String.join ts))).filter
    (fun s => s ≠ "")).getD "Unknown"
  let price := (row.price.map (fun ts => collapseWs (String.join ts))).filter
    (fun s => s ≠ "")
  some { appid := appid, name := name, price := price }

def extract_rows (rows : List RowElem) : List SearchItem :=
  rows.filterMap extract_row

/-- Model of `parse_search_html` (`src/steam.rs`): extract rows, fail with
`UpstreamSchema` when none were produced, then optionally extract facets. -/
def parse_search_html (serdeParse : String → Except String (List (List Value)))
    (html_text : String) (rows : List RowElem) (selected_tags : List Int)
    (with_facets : Bool) :
    Except AppError (List SearchItem × Option (List TagFacet)) :=
  let items := extract_rows rows
  if items.isEmpty then
    .error (.upstreamSchema "no search_result_row entries found in store response")
  else if with_facets then
    match parse_tag_facets serdeParse html_text selected_tags with
    | .error e => .error e
    | .ok facets => .ok (items, some facets)
  else
    .ok (items, none)

/-! ## Dictionary store (`src/store.rs`)

Each of the six tables (`tags`, `genres`, `categories` and their `_fts`
mirrors) is a list of `(id, name)` rows; ids are modelled already cast to
text (`CAST(id AS TEXT)` is how every query surfaces them). -/

/-- One `(id, name)` row of a dictionary table. -/
structure Row where
  id : String
  name : String
deriving DecidableEq, Repr

/-- The six dictionary tables of the live database (the `app_cache` table is
modelled separately). -/
structure DbState where
  tags : List Row
  genres : List Row
  categories : List Row
  tags_fts : List Row
  genres_fts : List Row
  categories_fts : List Row
deriving DecidableEq, Repr

/-- The statements of the SQL batch of `seed_from_embedded_db`, in source
order.  `ATTACH`/`DETACH` manipulate the temporary snapshot file and leave
the six live tables unchanged. -/
inductive SeedStmt where
  | attachSeed
  | deleteTags | deleteGenres | deleteCategories
  | deleteTagsFts | deleteGenresFts | deleteCategoriesFts
  | insertTags | insertGenres | insertCategories
  | insertTagsFts | insertGenresFts | insertCategoriesFts
  | detachSeed
deriving DecidableEq, Repr

/-- Effect of one statement of the seed batch on the live tables, reading
from the attached snapshot `seed`. -/
def applySeedStmt (seed : DbState) (st : DbState) : SeedStmt → DbState
  | .attachSeed => st
  | .deleteTags => { st with tags := [] }
  | .deleteGenres => { st with genres := [] }
  | .deleteCategories => { st with categories := [] }
  | .deleteTagsFts => { st with tags_fts := [] }
  | .deleteGenresFts => { st with genres_fts := [] }
  | .deleteCategoriesFts => { st with categories_fts := [] }
  | .insertTags => { st with tags := st.tags ++ seed.tags }
  | .insertGenres => { st with genres := st.genres ++ seed.genres }
  | .insertCategories => { st with categories := st.categories ++ seed.categories }
  | .insertTagsFts => { st with tags_fts := st.tags_fts ++ seed.tags_fts }
  | .insertGenresFts => { st with genres_fts := st.genres_fts ++ seed.genres_fts }
  | .insertCategoriesFts =>
    { st with categories_fts := st.categories_fts ++ seed.categories_fts }
  | .detachSeed => st

/-- The batch of `seed_from_embedded_db`, in the order of the SQL text. -/
def seedBatch : List SeedStmt :=
  [.attachSeed,
   .deleteTags, .deleteGenres, .deleteCategories,
   .deleteTagsFts, .deleteGenresFts, .deleteCategoriesFts,
   .insertTags, .insertGenres, .insertCategories,
   .insertTagsFts, .insertGenresFts, .insertCategoriesFts,
   .detachSeed]

/-- Model of `rusqlite::Connection::execute_batch` on the seed batch: the
statements run one at a time in autocommit mode (the batch contains no
`BEGIN`/`COMMIT`), so each successful statement commits on its own.
`failAt = some k` means the `k`-th statement (0-based) raises an SQLite
error: statements before `k` keep their committed effects, statement `k`
itself has no effect (per-statement atomicity), and the rest never run.
Returns the final state and whether the whole batch succeeded. -/
def execute_batch (seed : DbState) (failAt : Option Nat) (stmts : List SeedStmt)
    (st : DbState) : DbState × Bool :=
  match stmts, failAt with
  | [], _ => (st, true)
  | _ :: _, some 0 => (st, false)
  | s :: rest, some (k + 1) =>
    execute_batch seed (some k) rest (applySeedStmt seed st s)
  | s :: rest, none =>
    execute_batch seed none rest (applySeedStmt seed st s)

/-- Model of `seed_from_embedded_db` (`src/store.rs`): write the embedded
snapshot `seed` to a temp file, run the batch, remove the temp file, and
surface an SQLite failure as `AppError::Database`. -/
def seed_from_embedded_db (seed : DbState) (failAt : Option Nat) (st : DbState) :
    DbState × Bool :=
  execute_batch seed failAt seedBatch st

/-- Model of `ensure_seeded` (`src/store.rs`): count the rows of `tags`;
re-seed from the embedded snapshot exactly when that count is zero. -/
def ensure_seeded (seed : DbState) (failAt : Option Nat) (st : DbState) :
    DbState × Bool :=
  if st.tags.length == 0 then seed_from_embedded_db seed failAt st
  else (st, true)

/-! ## `list_dict` and `find_dict` (`src/store.rs`) -/

/-- SQL `ORDER BY name ASC` on a dictionary table (BINARY collation =
code-point order; ties between equal names may come back in any order, the
model picks the stable insertion sort). -/
def sortByName (rows : List Row) : List Row :=
  List.insertionSort (fun a b => strLe a.name b.name = true) rows

/-- Model of `list_dict` (`src/store.rs`): page the name-ordered table with
`LIMIT ? OFFSET ?` and pair it with the unfiltered `COUNT(*)`. -/
def list_dict (table : List Row) (limit offset : Nat) :
    List DictItem × Nat :=
  ((((sortByName table).drop offset).take limit).map
    (fun r => { id := r.id, name := r.name }), table.length)

/-- Model of `to_fts_query` (`src/store.rs`): non-alphanumerics to spaces,
split on whitespace, strip `"` from each token, suffix `*`, join with
`" AND "`. -/
def to_fts_query (input : String) : String :=
  let normalized := input.toList.map (fun c => if c.isAlphanum then c else ' ')
  let terms := ((normalized.splitOnP Char.isWhitespace).map
      (fun t => String.mk (t.filter (fun c => c ≠ '"')))).filter (fun t => t ≠ "")
  String.intercalate " AND " (terms.map (fun t => t ++ "*"))

/-- The stored-name normalization of the fallback predicate:
`REPLACE(REPLACE(LOWER(name), '-', ''), ' ', '')`. -/
def stripName (name : String) : String :=
  String.mk (((rustToLower name).toList.filter (fun c => c ≠ '-')).filter
    (fun c => c ≠ ' '))

/-- The query normalization of the fallback path:
`query.to_lowercase().chars().filter(is_alphanumeric)`. -/
def normalizeQuery (query : String) : String :=
  String.mk ((rustToLower query).toList.filter Char.isAlphanum)

/-- Substring containment on char lists (SQL LIKE with a pattern `%needle%`
whose needle is metacharacter-free). -/
def infixOf : List Char → List Char → Bool
  | needle, [] => needle.isEmpty
  | needle, c :: rest => needle.isPrefixOf (c :: rest) || infixOf needle rest

/-- The fallback LIKE predicate of `find_dict`: the normalized query
occurs as a substring of the stripped stored name.  (The normalized query
contains only alphanumerics, so the `LIKE` pattern has no metacharacters and
means plain substring containment; the ASCII case folding of LIKE is absorbed
by the lower-casing on both sides.) -/
def fallbackMatch (query : String) (r : Row) : Bool :=
  infixOf (normalizeQuery query).toList (stripName r.name).toList

/-- Model of `find_dict` (`src/store.rs`).  The FTS5 engine is external to
the source and is passed as an oracle `fts`: `fts q` is the full relevance-
ordered result set `(id, name, bm25-rank)` of `… MATCH q ORDER BY rank`, or
an SQLite error (as every statement may raise, e.g. `MATCH ''` is a syntax
error).  The source pages it with `LIMIT/OFFSET` and counts the same
predicate separately; when the FTS step was skipped (empty normalized
query) or returned no rows, the substring fallback with sentinel rank
`1000.0` replaces both the rows and the total. -/
def fallback_find (table : List Row) (query : String) (limit offset : Nat) :
    List DictFindItem × Nat :=
  let hits := table.filter (fallbackMatch query)
  ((((sortByName hits).drop offset).take limit).map
    (fun r => { id := r.id, name := r.name, rank := 1000.0 }), hits.length)

def find_dict (fts : String → Except AppError (List (String × String × Float)))
    (table : List Row) (query : String) (limit offset : Nat) :
    Except AppError (List DictFindItem × Nat) :=
  let q := to_fts_query query
  if q = "" then
    .ok (fallback_find table query limit offset)
  else
    match fts q with
    | .error e => .error e
    | .ok rows =>
      let out := ((rows.drop offset).take limit).map
        (fun r : String × String × Float =>
          { id := r.1, name := r.2.1, rank := r.2.2 })
      if out.isEmpty then .ok (fallback_find table query limit offset)
      else .ok (out, rows.length)

/-! ## Cached detail lookup (`handle_app`, `src/main.rs`) -/

/-- Rust `i64::saturating_sub`, on the mathematical integers with the `i64`
bounds made explicit. -/
def i64SatSub (a b : Int) : Int :=
  let r := a - b
  if r < -(2 ^ 63) then -(2 ^ 63)
  else if r > 2 ^ 63 - 1 then 2 ^ 63 - 1
  else r

/-- Model of `handle_app` (`src/main.rs`): compute the staleness threshold,
try the cache, otherwise use the freshly fetched payload (`fetchResult`,
the body already retrieved by `fetch_appdetails_json`) and write it to the
cache before normalizing.  Returns the cache table after the call, the
`cached` flag, and the normalization outcome.  `serdeParse` stands for
`serde_json::from_str::<Value>`. -/
def handle_app (serdeParse : String → Except String Value) (fetchResult : String)
    (cache : List CacheRow) (appid ttl_sec now : Int) :
    List CacheRow × Bool × Except AppError AppDetailsOut :=
  let min_ts := i64SatSub now (max ttl_sec 0)
  match get_cached_app cache appid min_ts with
  | some cached_raw =>
    (cache, true, normalize_appdetails appid (serdeParse cached_raw))
  | none =>
    let cache' := put_cached_app cache appid fetchResult now
    (cache', false, normalize_appdetails appid (serdeParse fetchResult))

/-! ## Ordering lemmas for the name sort -/

lemma lexLe_nil (bs : List Char) : lexLe [] bs = true := rfl

lemma lexLe_total (as bs : List Char) : lexLe as bs = true ∨ lexLe bs as = true := by
  induction as generalizing bs with
  | nil => exact Or.inl rfl
  | cons a as ih =>
    cases bs with
    | nil => exact Or.inr rfl
    | cons b bs =>
      by_cases h1 : a.toNat < b.toNat
      · left; simp [lexLe, h1]
      · by_cases h2 : b.toNat < a.toNat
        · right; simp [lexLe, h2]
        · cases ih bs with
          | inl h => left; simp [lexLe, h1, h2, h]
          | inr h => right; simp [lexLe, h1, h2, h]

lemma lexLe_trans (as bs cs : List Char) (h1 : lexLe as bs = true)
    (h2 : lexLe bs cs = true) : lexLe as cs = true := by
  induction as generalizing bs cs with
  | nil => rfl
  | cons a as ih =>
    cases bs with
    | nil => simp [lexLe] at h1
    | cons b bs =>
      cases cs with
      | nil => simp [lexLe] at h2
      | cons c cs =>
        simp only [lexLe] at h1 h2 ⊢
        split_ifs at h1 h2 ⊢ <;> try rfl
        all_goals try omega
        all_goals exact ih bs cs h1 h2

lemma strLe_total (a b : String) : strLe a b = true ∨ strLe b a = true :=
  lexLe_total a.toList b.toList

lemma strLe_trans (a b c : String) (h1 : strLe a b = true) (h2 : strLe b c = true) :
    strLe a c = true :=
  lexLe_trans a.toList b.toList c.toList h1 h2

lemma sortByName_sorted (l : List Row) :
    List.Pairwise (fun a b : Row => strLe a.name b.name = true) (sortByName l) := by
  have htot : IsTotal Row (fun a b : Row => strLe a.name b.name = true) :=
    ⟨fun a b => strLe_total a.name b.name⟩
  have htrans : IsTrans Row (fun a b : Row => strLe a.name b.name = true) :=
    ⟨fun a b c => strLe_trans a.name b.name c.name⟩
  exact @List.sorted_insertionSort Row _ _ htot htrans l

lemma sortByName_perm (l : List Row) : (sortByName l).Perm l :=
  List.perm_insertionSort _ l

lemma page_sublist (l : List Row) (limit offset : Nat) :
    ((l.drop offset).take limit).Sublist l :=
  (List.take_sublist _ _).trans (List.drop_sublist _ _)

/-- **C9**  For every dictionary table (any of the three kinds), limit and
offset: `list_dict` returns entries in ascending name order — strictly
ascending whenever the names of the table are pairwise distinct — and the
returned total is the unfiltered row count of the table, identical for all
limit/offset values. -/
theorem list_dict_ordered_and_total_stable :
    ∀ (table : List Row) (limit offset limit2 offset2 : Nat),
      (list_dict table limit offset).2 = table.length ∧
      (list_dict table limit offset).2 = (list_dict table limit2 offset2).2 ∧
      List.Pairwise (fun a b : DictItem => strLe a.name b.name = true)
        (list_dict table limit offset).1 ∧
      ((table.map Row.name).Nodup →
        List.Pairwise
          (fun a b : DictItem => strLe a.name b.name = true ∧ a.name ≠ b.name)
          (list_dict table limit offset).1) := by
  intro table limit offset limit2 offset2
  have hpage := ((sortByName_sorted table).sublist (page_sublist _ limit offset))
  refine ⟨rfl, rfl, ?_, ?_⟩
  · exact List.pairwise_map.mpr hpage
  · intro hnodup
    have hnodup2 : (((sortByName table).map Row.name)).Nodup :=
      (((sortByName_perm table).map Row.name).nodup_iff).mpr hnodup
    have hne : List.Pairwise (fun a b : Row => a.name ≠ b.name) (sortByName table) :=
      List.pairwise_map.mp hnodup2
    have hboth := ((sortByName_sorted table).and hne).sublist (page_sublist _ limit offset)
    exact List.pairwise_map.mpr hboth

/-- Instantiation of `list_dict_ordered_and_total_stable` on a concrete
two-row table with distinct names. -/
theorem list_dict_ordered_and_total_stable_witness :
    (([{ id := "1", name := "b" }, { id := "2", name := "a" }] : List Row).map
        Row.name).Nodup ∧
    List.Pairwise
      (fun a b : DictItem => strLe a.name b.name = true ∧ a.name ≠ b.name)
      (list_dict [{ id := "1", name := "b" }, { id := "2", name := "a" }] 10 0).1 ∧
    (list_dict [{ id := "1", name := "b" }, { id := "2", name := "a" }] 10 0).2 = 2 :=
  ⟨by decide,
   (list_dict_ordered_and_total_stable
      [{ id := "1", name := "b" }, { id := "2", name := "a" }] 10 0 3 1).2.2.2
     (by decide),
   (list_dict_ordered_and_total_stable
      [{ id := "1", name := "b" }, { id := "2", name := "a" }] 10 0 3 1).1⟩

/-! ## Cache lemmas -/

lemma put_cached_app_cons_ne (x : CacheRow) (rest : List CacheRow) (appid : Int)
    (p : String) (t : Int) (hx : x.appid ≠ appid) :
    put_cached_app (x :: rest) appid p t = x :: put_cached_app rest appid p t := by
  unfold put_cached_app
  have hbx : (x.appid == appid) = false := by simp [hx]
  by_cases hany : rest.any (fun r => r.appid == appid) = true
  · rw [if_pos (by simp [List.any_cons, hbx, hany]), if_pos hany, List.map_cons,
      if_neg (by simp [hx])]
  · rw [if_neg (by simp [List.any_cons, hbx]; simpa using hany), if_neg hany,
      List.cons_append]

lemma find_map_upd_none (l : List CacheRow) (appid : Int) (p : String) (t minF : Int)
    (ht : ¬ minF ≤ t) :
    List.find? (fun r => r.appid == appid && minF ≤ r.fetched_at)
      (l.map (fun r => if r.appid == appid then ⟨appid, p, t⟩ else r)) = none := by
  induction l with
  | nil => rfl
  | cons x rest ih =>
    rw [List.map_cons]
    by_cases hx : x.appid = appid
    · rw [if_pos (by simp [hx]), List.find?_cons_of_neg _ (by simp [ht])]
      exact ih
    · rw [if_neg (by simp [hx]), List.find?_cons_of_neg _ (by simp [hx])]
      exact ih

lemma get_put_same (cache : List CacheRow) (appid : Int) (p : String) (t minF : Int) :
    get_cached_app (put_cached_app cache appid p t) appid minF =
      if minF ≤ t then some p else none := by
  induction cache with
  | nil =>
    by_cases ht : minF ≤ t <;> simp [put_cached_app, get_cached_app, ht]
  | cons x rest ih =>
    by_cases hx : x.appid = appid
    · have hany : (x :: rest).any (fun r => r.appid == appid) = true := by
        simp [List.any_cons, hx]
      rw [put_cached_app, if_pos hany, List.map_cons, if_pos (by simp [hx])]
      by_cases ht : minF ≤ t
      · rw [get_cached_app, List.find?_cons_of_pos _ (by simp [ht]), if_pos ht]
        rfl
      · rw [get_cached_app, List.find?_cons_of_neg _ (by simp [ht]),
          find_map_upd_none _ _ _ _ _ ht, if_neg ht]
        rfl
    · rw [put_cached_app_cons_ne x rest appid p t hx, get_cached_app,
        List.find?_cons_of_neg _ (by simp [hx])]
      exact ih

lemma put_mem_key (cache : List CacheRow) (appid : Int) (p : String) (t : Int) :
    ∀ r ∈ put_cached_app cache appid p t, r.appid = appid →
      r = ⟨appid, p, t⟩ := by
  intro r hr hkey
  unfold put_cached_app at hr
  by_cases hany : cache.any (fun r => r.appid == appid) = true
  · rw [if_pos hany] at hr
    obtain ⟨s, hs, hmap⟩ := List.mem_map.mp hr
    by_cases hsk : s.appid = appid
    · rw [if_pos (by simp [hsk])] at hmap
      exact hmap.symm
    · rw [if_neg (by simp [hsk])] at hmap
      subst hmap
      exact absurd hkey hsk
  · rw [if_neg hany] at hr
    rcases List.mem_append.mp hr with hmem | hmem
    · exact absurd (List.any_eq_true.mpr ⟨r, hmem, by simp [hkey]⟩) hany
    · simpa using hmem

lemma get_mem_iff (cache : List CacheRow)
    (hnd : List.Pairwise (fun a b : CacheRow => a.appid ≠ b.appid) cache)
    (appid minF : Int) (p : String) :
    get_cached_app cache appid minF = some p ↔
      ∃ r, r ∈ cache ∧ r.appid = appid ∧ minF ≤ r.fetched_at ∧
        r.payload_json = p := by
  induction cache with
  | nil => simp [get_cached_app]
  | cons x rest ih =>
    have hndr : List.Pairwise (fun a b : CacheRow => a.appid ≠ b.appid) rest :=
      List.Pairwise.of_cons hnd
    have hxr : ∀ r ∈ rest, x.appid ≠ r.appid :=
      fun r hr => List.rel_of_pairwise_cons hnd hr
    by_cases hx : x.appid = appid
    · by_cases ht : minF ≤ x.fetched_at
      · rw [get_cached_app, List.find?_cons_of_pos _ (by simp [hx, ht])]
        constructor
        · intro h
          exact ⟨x, List.mem_cons_self x rest, hx, ht, by simpa using h⟩
        · intro ⟨r, hr, hrk, hrt, hrp⟩
          have hrx : r = x := by
            rcases List.mem_cons.mp hr with h | h
            · exact h
            · exact absurd (hx.trans hrk.symm) (hxr r h)
          subst hrx
          simpa using hrp
      · rw [get_cached_app, List.find?_cons_of_neg _ (by simp [hx, ht])]
        rw [show (List.find? (fun r => r.appid == appid && minF ≤ r.fetched_at)
            rest).map (·.payload_json) = get_cached_app rest appid minF from rfl,
          ih hndr]
        constructor
        · intro ⟨r, hr, hrk, hrt, hrp⟩
          exact ⟨r, List.mem_cons_of_mem x hr, hrk, hrt, hrp⟩
        · intro ⟨r, hr, hrk, hrt, hrp⟩
          rcases List.mem_cons.mp hr with h | h
          · subst h; exact absurd hrt ht
          · exact ⟨r, h, hrk, hrt, hrp⟩
    · rw [get_cached_app, List.find?_cons_of_neg _ (by simp [hx])]
      rw [show (List.find? (fun r => r.appid == appid && minF ≤ r.fetched_at)
          rest).map (·.payload_json) = get_cached_app rest appid minF from rfl,
        ih hndr]
      constructor
      · intro ⟨r, hr, hrk, hrt, hrp⟩
        exact ⟨r, List.mem_cons_of_mem x hr, hrk, hrt, hrp⟩
      · intro ⟨r, hr, hrk, hrt, hrp⟩
        rcases List.mem_cons.mp hr with h | h
        · subst h; exact absurd hrk hx
        · exact ⟨r, h, hrk, hrt, hrp⟩

/-- **C6**  The cache read returns the payload exactly when a row for the id
exists with `fetched_at ≥ minFetchedAt` (and deletes nothing — the read
leaves the table unchanged by construction); the write is an unconditional
upsert; a `get` at the timestamp of the write itself returns the payload just put,
and a `get` with `minFetchedAt` one past that timestamp returns absent. -/
theorem cache_get_put_spec :
    ∀ (cache : List CacheRow) (appid : Int) (payload : String) (t minF : Int),
      (get_cached_app (put_cached_app cache appid payload t) appid minF =
        if minF ≤ t then some payload else none) ∧
      (List.Pairwise (fun a b : CacheRow => a.appid ≠ b.appid) cache →
        ∀ p, get_cached_app cache appid minF = some p ↔
          ∃ r, r ∈ cache ∧ r.appid = appid ∧ minF ≤ r.fetched_at ∧
            r.payload_json = p) ∧
      (∀ r, r ∈ put_cached_app cache appid payload t → r.appid = appid →
        r = ⟨appid, payload, t⟩) ∧
      (get_cached_app (put_cached_app cache appid payload t) appid t =
        some payload) ∧
      (get_cached_app (put_cached_app cache appid payload t) appid (t + 1) =
        none) := by
  intro cache appid payload t minF
  refine ⟨get_put_same cache appid payload t minF,
    fun hnd p => get_mem_iff cache hnd appid minF p,
    put_mem_key cache appid payload t, ?_, ?_⟩
  · rw [get_put_same]; simp
  · rw [get_put_same]; simp

/-- Instantiation of `cache_get_put_spec` on a concrete put/get pair. -/
theorem cache_get_put_spec_witness :
    (get_cached_app (put_cached_app [] 730 "payload" 100) 730 100 =
      some "payload") ∧
    (get_cached_app (put_cached_app [] 730 "payload" 100) 730 101 = none) ∧
    (List.Pairwise
      (fun a b : CacheRow => a.appid ≠ b.appid)
      ([⟨730, "payload", 100⟩] : List CacheRow)) ∧
    (get_cached_app [⟨730, "payload", 100⟩] 730 40 = some "payload" ↔
      ∃ r, r ∈ ([⟨730, "payload", 100⟩] : List CacheRow) ∧ r.appid = 730 ∧
        (40 : Int) ≤ r.fetched_at ∧ r.payload_json = "payload") :=
  ⟨(cache_get_put_spec [] 730 "payload" 100 100).2.2.2.1,
   (cache_get_put_spec [] 730 "payload" 100 100).2.2.2.2,
   by decide,
   (cache_get_put_spec [⟨730, "payload", 100⟩] 730 "payload" 100 40).2.1
     (by decide) "payload"⟩

/-! ## Seed path (C1, C2) -/

lemma seed_batch_success (seed st : DbState) :
    seed_from_embedded_db seed none st =
      ({ tags := seed.tags, genres := seed.genres, categories := seed.categories,
         tags_fts := seed.tags_fts, genres_fts := seed.genres_fts,
         categories_fts := seed.categories_fts }, true) := rfl

/-- **C1** (counterexample)  The wholesale re-seed batch is *not* executed
inside one transaction: `execute_batch` runs the statements in autocommit
mode, so when the `INSERT INTO genres …` statement (index 8 of the batch)
fails, the already-committed deletes and the tags insert stay: `tags` ends
up fully replaced by the snapshot while `genres` is left empty — neither the
pre-transaction state nor the snapshot state. -/
theorem seed_from_embedded_db_not_atomic_cex :
    (seed_from_embedded_db
        ⟨[⟨"1", "new tag"⟩], [⟨"g", "New Genre"⟩], [⟨"2", "new cat"⟩],
         [⟨"1", "new tag"⟩], [⟨"g", "New Genre"⟩], [⟨"2", "new cat"⟩]⟩
        (some 8)
        ⟨[⟨"9", "old tag"⟩], [⟨"h", "Old Genre"⟩], [⟨"3", "old cat"⟩],
         [⟨"9", "old tag"⟩], [⟨"h", "Old Genre"⟩], [⟨"3", "old cat"⟩]⟩).2
      = false ∧
    (seed_from_embedded_db
        ⟨[⟨"1", "new tag"⟩], [⟨"g", "New Genre"⟩], [⟨"2", "new cat"⟩],
         [⟨"1", "new tag"⟩], [⟨"g", "New Genre"⟩], [⟨"2", "new cat"⟩]⟩
        (some 8)
        ⟨[⟨"9", "old tag"⟩], [⟨"h", "Old Genre"⟩], [⟨"3", "old cat"⟩],
         [⟨"9", "old tag"⟩], [⟨"h", "Old Genre"⟩], [⟨"3", "old cat"⟩]⟩).1
      = ⟨[⟨"1", "new tag"⟩], [], [], [], [], []⟩ ∧
    ([⟨"1", "new tag"⟩] : List Row) ≠ [⟨"9", "old tag"⟩] ∧
    ([] : List Row) ≠ [⟨"h", "Old Genre"⟩] := by
  refine ⟨rfl, rfl, by decide, by decide⟩

/-- **C1** (amended)  `seed_from_embedded_db` executes its deletes and
inserts as a sequential autocommit batch, not one transaction: when every
statement succeeds all six tables are replaced by the snapshot contents, but
a statement failing mid-batch preserves the effects of the statements before
it, so the six tables can be left partially replaced (tags already holding
the snapshot rows while genres is left empty). -/
theorem seed_from_embedded_db_sequential :
    (∀ seed st : DbState,
      seed_from_embedded_db seed none st =
        ({ tags := seed.tags, genres := seed.genres,
           categories := seed.categories, tags_fts := seed.tags_fts,
           genres_fts := seed.genres_fts,
           categories_fts := seed.categories_fts }, true)) ∧
    (∃ (seed st : DbState) (k : Nat),
      (seed_from_embedded_db seed (some k) st).2 = false ∧
      (seed_from_embedded_db seed (some k) st).1.tags = seed.tags ∧
      (seed_from_embedded_db seed (some k) st).1.genres ≠ st.genres ∧
      (seed_from_embedded_db seed (some k) st).1.genres ≠ seed.genres) := by
  refine ⟨seed_batch_success, ?_⟩
  refine ⟨⟨[⟨"1", "new tag"⟩], [⟨"g", "New Genre"⟩], [⟨"2", "new cat"⟩],
           [⟨"1", "new tag"⟩], [⟨"g", "New Genre"⟩], [⟨"2", "new cat"⟩]⟩,
          ⟨[⟨"9", "old tag"⟩], [⟨"h", "Old Genre"⟩], [⟨"3", "old cat"⟩],
           [⟨"9", "old tag"⟩], [⟨"h", "Old Genre"⟩], [⟨"3", "old cat"⟩]⟩,
          8, rfl, rfl, by decide, by decide⟩

/-- **C2** (counterexample)  `ensure_seeded` counts only the `tags` table:
with a non-empty `tags` but empty `genres` and `categories` primaries (and a
snapshot that has genre rows to offer), no bulk load is performed and the
state is returned unchanged. -/
theorem ensure_seeded_ignores_other_tables_cex :
    ensure_seeded
        ⟨[⟨"1", "t"⟩], [⟨"g", "G"⟩], [⟨"2", "c"⟩],
         [⟨"1", "t"⟩], [⟨"g", "G"⟩], [⟨"2", "c"⟩]⟩
        none
        ⟨[⟨"1", "t"⟩], [], [], [], [], []⟩ =
      (⟨[⟨"1", "t"⟩], [], [], [], [], []⟩, true) ∧
    (⟨[⟨"1", "t"⟩], [], [], [], [], []⟩ : DbState).genres = [] ∧
    (⟨[⟨"1", "t"⟩], [⟨"g", "G"⟩], [⟨"2", "c"⟩],
      [⟨"1", "t"⟩], [⟨"g", "G"⟩], [⟨"2", "c"⟩]⟩ : DbState).genres ≠ [] := by
  refine ⟨rfl, rfl, by decide⟩

/-- **C2** (amended)  `ensure_seeded` performs the one-shot bulk load exactly
when the `tags` primary table is empty; when `tags` is non-empty no write
occurs — even if the `genres` or `categories` primaries are empty. -/
theorem ensure_seeded_triggers_on_empty_tags :
    ∀ (seed : DbState) (failAt : Option Nat) (st : DbState),
      (st.tags ≠ [] → ensure_seeded seed failAt st = (st, true)) ∧
      (st.tags = [] →
        ensure_seeded seed none st =
          ({ tags := seed.tags, genres := seed.genres,
             categories := seed.categories, tags_fts := seed.tags_fts,
             genres_fts := seed.genres_fts,
             categories_fts := seed.categories_fts }, true)) := by
  intro seed failAt st
  constructor
  · intro h
    have hlen : (st.tags.length == 0) = false := by
      simp [List.length_eq_zero, h]
    simp [ensure_seeded, hlen]
  · intro h
    have hlen : (st.tags.length == 0) = true := by simp [h]
    simp only [ensure_seeded, hlen, if_true]
    exact seed_batch_success seed st

/-- Instantiation of `ensure_seeded_triggers_on_empty_tags`: a state with
non-empty tags is left alone; a state with empty tags is fully re-seeded. -/
theorem ensure_seeded_triggers_on_empty_tags_witness :
    ensure_seeded
        ⟨[⟨"1", "t"⟩], [⟨"g", "G"⟩], [⟨"2", "c"⟩],
         [⟨"1", "t"⟩], [⟨"g", "G"⟩], [⟨"2", "c"⟩]⟩
        none ⟨[⟨"9", "x"⟩], [], [], [], [], []⟩ =
      (⟨[⟨"9", "x"⟩], [], [], [], [], []⟩, true) ∧
    ensure_seeded
        ⟨[⟨"1", "t"⟩], [⟨"g", "G"⟩], [⟨"2", "c"⟩],
         [⟨"1", "t"⟩], [⟨"g", "G"⟩], [⟨"2", "c"⟩]⟩
        none ⟨[], [⟨"h", "Old"⟩], [], [], [], []⟩ =
      (⟨[⟨"1", "t"⟩], [⟨"g", "G"⟩], [⟨"2", "c"⟩],
        [⟨"1", "t"⟩], [⟨"g", "G"⟩], [⟨"2", "c"⟩]⟩, true) :=
  ⟨(ensure_seeded_triggers_on_empty_tags _ none
      ⟨[⟨"9", "x"⟩], [], [], [], [], []⟩).1 (by decide),
   (ensure_seeded_triggers_on_empty_tags _ none
      ⟨[], [⟨"h", "Old"⟩], [], [], [], []⟩).2 rfl⟩

/-! ## Cached detail lookup (C10) -/

/-- **C10**  On a cache miss, `handle_app` writes the freshly fetched raw
payload to the cache keyed by the requested id and stamped `now` before
normalization is attempted, so the row exists no matter how normalization
turns out (in particular when it fails with `NotFound`/`UpstreamSchema`),
and a repeat lookup whose staleness threshold is at most `now` is served
that same payload from cache, reproducing the same normalization result. -/
theorem handle_app_caches_before_normalize :
    ∀ (serdeParse : String → Except String Value) (fetch fetch2 : String)
      (cache : List CacheRow) (appid ttl now ttl2 now2 : Int),
      get_cached_app cache appid (i64SatSub now (max ttl 0)) = none →
      (handle_app serdeParse fetch cache appid ttl now =
        (put_cached_app cache appid fetch now, false,
          normalize_appdetails appid (serdeParse fetch))) ∧
      (∀ minF, minF ≤ now →
        get_cached_app (put_cached_app cache appid fetch now) appid minF =
          some fetch) ∧
      (i64SatSub now2 (max ttl2 0) ≤ now →
        handle_app serdeParse fetch2 (put_cached_app cache appid fetch now)
            appid ttl2 now2 =
          (put_cached_app cache appid fetch now, true,
            normalize_appdetails appid (serdeParse fetch))) := by
  intro serdeParse fetch fetch2 cache appid ttl now ttl2 now2 hmiss
  have hget : ∀ minF : Int, minF ≤ now →
      get_cached_app (put_cached_app cache appid fetch now) appid minF =
        some fetch := by
    intro minF hle
    rw [get_put_same, if_pos hle]
  refine ⟨?_, hget, ?_⟩
  · simp only [handle_app, hmiss]
  · intro hle
    simp only [handle_app, hget _ hle]

/-- Instantiation of `handle_app_caches_before_normalize`: a payload whose
normalization fails with `NotFound` is cached anyway, and the repeat lookup
within the TTL window is served from cache with the same failure. -/
theorem handle_app_caches_before_normalize_witness :
    handle_app
        (fun _ => Except.ok
          (Value.obj [("730", Value.obj [("success", Value.bool false)])]))
        "raw" [] 730 60 1000 =
      ([⟨730, "raw", 1000⟩], false,
        Except.error (AppError.notFound "appid 730 not found")) ∧
    handle_app
        (fun _ => Except.ok
          (Value.obj [("730", Value.obj [("success", Value.bool false)])]))
        "raw2" [⟨730, "raw", 1000⟩] 730 60 1030 =
      ([⟨730, "raw", 1000⟩], true,
        Except.error (AppError.notFound "appid 730 not found")) :=
  ⟨(handle_app_caches_before_normalize
      (fun _ => Except.ok
        (Value.obj [("730", Value.obj [("success", Value.bool false)])]))
      "raw" "raw2" [] 730 60 1000 60 1030 rfl).1,
   (handle_app_caches_before_normalize
      (fun _ => Except.ok
        (Value.obj [("730", Value.obj [("success", Value.bool false)])]))
      "raw" "raw2" [] 730 60 1000 60 1030 rfl).2.2 (by decide)⟩

/-! ## Normalizer theorems (C3, C8) -/

/-- Spec-side predicate: the array element has both an integer `id` and a
string `description`. -/
def hasIdDescription (item : Value) : Bool :=
  ((item.get "id").bind Value.as_i64).isSome &&
    ((item.get "description").bind Value.as_str).isSome

/-- Spec-side mapping: `{id stringified, name = description}`. -/
def toIdDescription (item : Value) : DictItem :=
  { id := toString (((item.get "id").bind Value.as_i64).getD 0),
    name := ((item.get "description").bind Value.as_str).getD "" }

lemma parse_id_description_elem_eq (item : Value) :
    parse_id_description_elem item =
      if hasIdDescription item then some (toIdDescription item) else none := by
  unfold parse_id_description_elem
  cases h1 : item.get "id" with
  | none => simp [hasIdDescription, h1]
  | some idv =>
    cases h2 : idv.as_i64 with
    | none => simp [hasIdDescription, h1, h2]
    | some idn =>
      cases h3 : item.get "description" with
      | none => simp [hasIdDescription, h1, h2, h3]
      | some dv =>
        cases h4 : dv.as_str with
        | none => simp [hasIdDescription, h1, h2, h3, h4]
        | some ds => simp [hasIdDescription, toIdDescription, h1, h2, h3, h4]

lemma parse_id_description_list_eq (items : List Value) :
    parse_id_description_list (some (.arr items)) =
      (items.filter hasIdDescription).map toIdDescription := by
  induction items with
  | nil => rfl
  | cons item rest ih =>
    show (item :: rest).filterMap parse_id_description_elem = _
    rw [List.filterMap_cons, parse_id_description_elem_eq, List.filter_cons]
    by_cases h : hasIdDescription item
    · simp only [h, if_true, List.map_cons]
      exact congrArg _ ih
    · simp only [h, Bool.false_eq_true, if_false]
      exact ih

lemma normalize_appdetails_success (appid : Int) (root obj data : Value)
    (hobj : root.get (toString appid) = some obj)
    (hsucc : obj.get "success" = some (.bool true))
    (hdata : obj.get "data" = some data) :
    normalize_appdetails appid (.ok root) =
      .ok {
        appid := appid
        name := ((data.get "name").bind Value.as_str).getD "Unknown"
        short_description := (data.get "short_description").bind Value.as_str
        categories := parse_id_description_list (data.get "categories")
        genres := parse_id_description_list (data.get "genres")
        supported_languages := (data.get "supported_languages").bind Value.as_str
        platforms := (data.get "platforms").getD Value.null
        release_date := ((data.get "release_date").bind
          (fun v => v.get "date")).bind Value.as_str
        price_overview := data.get "price_overview" } := by
  simp [normalize_appdetails, hobj, hsucc, hdata, Value.as_bool]

/-- **C3**  `normalize_appdetails` is `UpstreamSchema` when the top-level
object lacks the stringified-id key; `NotFound` when the key is there but
the success flag is `false`, absent, or non-boolean; `UpstreamSchema` when
success is `true` but `data` is absent; and on success it produces a result
whose name is the name string of the payload, defaulting to `"Unknown"` when the
name field is absent or not a string (never failing on it). -/
theorem normalize_appdetails_cases :
    ∀ (appid : Int) (root : Value),
      (root.get (toString appid) = none →
        normalize_appdetails appid (.ok root) =
          .error (.upstreamSchema "appid key missing in appdetails")) ∧
      (∀ obj, root.get (toString appid) = some obj →
        (obj.get "success" = some (.bool false) ∨ obj.get "success" = none ∨
          (∀ b, obj.get "success" ≠ some (.bool b))) →
        normalize_appdetails appid (.ok root) =
          .error (.notFound ("appid " ++ toString appid ++ " not found"))) ∧
      (∀ obj, root.get (toString appid) = some obj →
        obj.get "success" = some (.bool true) →
        obj.get "data" = none →
        normalize_appdetails appid (.ok root) =
          .error (.upstreamSchema "appdetails data missing")) ∧
      (∀ obj data, root.get (toString appid) = some obj →
        obj.get "success" = some (.bool true) →
        obj.get "data" = some data →
        ∃ out, normalize_appdetails appid (.ok root) = .ok out ∧
          (∀ s, data.get "name" = some (.str s) → out.name = s) ∧
          ((∀ s, data.get "name" ≠ some (.str s)) → out.name = "Unknown")) := by
  intro appid root
  refine ⟨?_, ?_, ?_, ?_⟩
  · intro h
    simp [normalize_appdetails, h]
  · intro obj hobj hflag
    have hsucc : ((obj.get "success").bind Value.as_bool).getD false = false := by
      rcases hflag with h | h | h
      · simp [h, Value.as_bool]
      · simp [h]
      · cases hg : obj.get "success" with
        | none => simp
        | some v =>
          cases v with
          | bool b => exact absurd hg (h b)
          | null => simp [Value.as_bool]
          | num n => simp [Value.as_bool]
          | fnum => simp [Value.as_bool]
          | str s => simp [Value.as_bool]
          | arr xs => simp [Value.as_bool]
          | obj fields => simp [Value.as_bool]
    simp [normalize_appdetails, hobj, hsucc]
  · intro obj hobj hsucc hdata
    simp [normalize_appdetails, hobj, hsucc, hdata, Value.as_bool]
  · intro obj data hobj hsucc hdata
    refine ⟨_, normalize_appdetails_success appid root obj data hobj hsucc hdata,
      ?_, ?_⟩
    · intro s hs
      simp [hs, Value.as_str]
    · intro hnone
      cases hg : data.get "name" with
      | none => simp
      | some v =>
        cases v with
        | str s => exact absurd hg (hnone s)
        | null => simp [Value.as_str]
        | bool b => simp [Value.as_str]
        | num n => simp [Value.as_str]
        | fnum => simp [Value.as_str]
        | arr xs => simp [Value.as_str]
        | obj fields => simp [Value.as_str]

/-- Instantiation of `normalize_appdetails_cases` at id 730: a missing key,
a `success:false` object, a success object without `data`, and a success
object whose `data` has no name. -/
theorem normalize_appdetails_cases_witness :
    (normalize_appdetails 730 (.ok (.obj [("731", .bool true)])) =
      .error (.upstreamSchema "appid key missing in appdetails")) ∧
    (normalize_appdetails 730
        (.ok (.obj [("730", .obj [("success", .bool false)])])) =
      .error (.notFound "appid 730 not found")) ∧
    (normalize_appdetails 730
        (.ok (.obj [("730", .obj [("success", .bool true)])])) =
      .error (.upstreamSchema "appdetails data missing")) ∧
    (∃ out, normalize_appdetails 730
        (.ok (.obj [("730", .obj [("success", .bool true),
          ("data", .obj [])])])) = .ok out ∧ out.name = "Unknown") :=
  ⟨(normalize_appdetails_cases 730 (.obj [("731", .bool true)])).1 rfl,
   (normalize_appdetails_cases 730
      (.obj [("730", .obj [("success", .bool false)])])).2.1
     (.obj [("success", .bool false)]) rfl (Or.inl rfl),
   (normalize_appdetails_cases 730
      (.obj [("730", .obj [("success", .bool true)])])).2.2.1
     (.obj [("success", .bool true)]) rfl rfl rfl,
   by
    obtain ⟨out, hout, _, hunk⟩ :=
      (normalize_appdetails_cases 730
        (.obj [("730", .obj [("success", .bool true),
          ("data", .obj [])])])).2.2.2
        (.obj [("success", .bool true), ("data", .obj [])]) (.obj [])
        rfl rfl rfl
    exact ⟨out, hout, hunk (fun s h => by simp [Value.get] at h)⟩⟩

/-- **C8**  For a successful normalization the category and genre lists are
exactly the elements of the corresponding payload arrays carrying an integer
`id` and a string `description`, in order, mapped to `{id stringified,
name = description}`; elements missing either field are dropped
individually, and an absent or non-array field yields an empty list. -/
theorem normalize_id_description_lists :
    (∀ items : List Value,
      parse_id_description_list (some (.arr items)) =
        (items.filter hasIdDescription).map toIdDescription) ∧
    (∀ v : Option Value, (∀ items, v ≠ some (.arr items)) →
      parse_id_description_list v = []) ∧
    (∀ (appid : Int) (root obj data : Value),
      root.get (toString appid) = some obj →
      obj.get "success" = some (.bool true) →
      obj.get "data" = some data →
      ∃ out, normalize_appdetails appid (.ok root) = .ok out ∧
        out.categories = parse_id_description_list (data.get "categories") ∧
        out.genres = parse_id_description_list (data.get "genres")) := by
  refine ⟨parse_id_description_list_eq, ?_, ?_⟩
  · intro v hv
    match v with
    | none => rfl
    | some .null => rfl
    | some (.bool b) => rfl
    | some (.num n) => rfl
    | some .fnum => rfl
    | some (.str s) => rfl
    | some (.arr items) => exact absurd rfl (hv items)
    | some (.obj fields) => rfl
  · intro appid root obj data hobj hsucc hdata
    exact ⟨_, normalize_appdetails_success appid root obj data hobj hsucc hdata,
      rfl, rfl⟩

/-- Instantiation of `normalize_id_description_lists`: a mixed array keeps
only its well-formed elements, and the example
`{"730":{"success":true,"data":{"name":"Game"}}}` yields empty lists. -/
theorem normalize_id_description_lists_witness :
    (parse_id_description_list (some (.arr
        [.obj [("id", .num 401), ("description", .str "Single-player")],
         .obj [("description", .str "no id here")],
         .obj [("id", .num 402)],
         .obj [("id", .str "x"), ("description", .str "non-integer id")]])) =
      [{ id := "401", name := "Single-player" }]) ∧
    (∃ out, normalize_appdetails 730
        (.ok (.obj [("730", .obj [("success", .bool true),
          ("data", .obj [("name", .str "Game")])])])) = .ok out ∧
        out.categories = [] ∧ out.genres = []) :=
  ⟨((normalize_id_description_lists).1
      [.obj [("id", .num 401), ("description", .str "Single-player")],
       .obj [("description", .str "no id here")],
       .obj [("id", .num 402)],
       .obj [("id", .str "x"), ("description", .str "non-integer id")]]).trans
    (by rfl),
   by
    obtain ⟨out, hout, hc, hg⟩ := (normalize_id_description_lists).2.2 730
      (.obj [("730", .obj [("success", .bool true),
        ("data", .obj [("name", .str "Game")])])])
      (.obj [("success", .bool true), ("data", .obj [("name", .str "Game")])])
      (.obj [("name", .str "Game")]) rfl rfl rfl
    exact ⟨out, hout, hc.trans rfl, hg.trans rfl⟩⟩

/-! ## Facet extraction theorems (C7) -/

lemma filterMap_eq_filter_map {α β : Type} (f : α → Option β) (p : α → Bool)
    (g : α → β) (h : ∀ x, f x = if p x then some (g x) else none) (l : List α) :
    l.filterMap f = (l.filter p).map g := by
  induction l with
  | nil => rfl
  | cons x rest ih =>
    rw [List.filterMap_cons, h x, List.filter_cons]
    by_cases hx : p x
    · simp only [hx, if_true, List.map_cons]
      exact congrArg _ ih
    · simp only [hx, Bool.false_eq_true, if_false]
      exact ih

/-- Spec-side predicate: the pair has exactly two elements and both coerce to
integers (directly or via parseable numeric text). -/
def goodPair (pair : List Value) : Bool :=
  match pair with
  | [a, b] => (value_to_i64 a).isSome && (value_to_i64 b).isSome
  | _ => false

/-- Spec-side facet built from a good pair; `selected` is true iff the
tagid is in the requested filter set. -/
def toFacet (selected_tags : List Int) (pair : List Value) : TagFacet :=
  match pair with
  | [a, b] =>
    { tagid := (value_to_i64 a).getD 0, count := (value_to_i64 b).getD 0,
      selected := selected_tags.contains ((value_to_i64 a).getD 0) }
  | _ => { tagid := 0, count := 0, selected := false }

lemma facet_of_pair_eq (selected_tags : List Int) (pair : List Value) :
    facet_of_pair selected_tags pair =
      if goodPair pair then some (toFacet selected_tags pair) else none := by
  match pair with
  | [] => rfl
  | [a] => rfl
  | a :: b :: c :: rest => rfl
  | [a, b] =>
    cases h1 : value_to_i64 a with
    | none => simp [facet_of_pair, goodPair, h1]
    | some tagid =>
      cases h2 : value_to_i64 b with
      | none => simp [facet_of_pair, goodPair, h1, h2]
      | some count => simp [facet_of_pair, goodPair, toFacet, h1, h2]

/-- **C7**  Facet extraction fails with `UpstreamSchema` when the inline
`PopulateTagFacetData(` call signature does not match anywhere, or when the
captured first array fragment is rejected by the JSON parser; otherwise
every pair with exactly two integer-coercible elements yields a facet whose
`selected` is true iff its tagid is in the filter set, and any other pair is
dropped without aborting the extraction. -/
theorem parse_tag_facets_spec :
    ∀ (serdeParse : String → Except String (List (List Value)))
      (html : String) (tags : List Int),
      (scanFacetCall html.toList = none →
        parse_tag_facets serdeParse html tags =
          .error (.upstreamSchema "facets block not found in search HTML")) ∧
      (∀ frag1 frag2 e, scanFacetCall html.toList = some (frag1, frag2) →
        serdeParse frag1 = .error e →
        parse_tag_facets serdeParse html tags =
          .error (.upstreamSchema ("facet parse failed: " ++ e))) ∧
      (∀ frag1 frag2 pairs, scanFacetCall html.toList = some (frag1, frag2) →
        serdeParse frag1 = .ok pairs →
        parse_tag_facets serdeParse html tags =
          .ok ((pairs.filter goodPair).map (toFacet tags)) ∧
        ∀ f ∈ (pairs.filter goodPair).map (toFacet tags),
          (f.selected = true ↔ f.tagid ∈ tags)) := by
  intro serdeParse html tags
  refine ⟨?_, ?_, ?_⟩
  · intro h
    unfold parse_tag_facets
    rw [h]
  · intro frag1 frag2 e hscan hparse
    unfold parse_tag_facets
    rw [hscan]
    show (match serdeParse frag1 with
      | Except.error e =>
        Except.error (AppError.upstreamSchema ("facet parse failed: " ++ e))
      | Except.ok parsed =>
        Except.ok (List.filterMap (facet_of_pair tags) parsed)) = _
    rw [hparse]
  · intro frag1 frag2 pairs hscan hparse
    constructor
    · unfold parse_tag_facets
      rw [hscan]
      show (match serdeParse frag1 with
        | Except.error e =>
          Except.error (AppError.upstreamSchema ("facet parse failed: " ++ e))
        | Except.ok parsed =>
          Except.ok (List.filterMap (facet_of_pair tags) parsed)) = _
      rw [hparse]
      exact congrArg Except.ok
        (filterMap_eq_filter_map _ _ _ (facet_of_pair_eq tags) pairs)
    · intro f hf
      obtain ⟨pair, hpair, hfp⟩ := List.mem_map.mp hf
      have hgood : goodPair pair = true := (List.mem_filter.mp hpair).2
      match pair with
      | [] => exact absurd hgood (by simp [goodPair])
      | [a] => exact absurd hgood (by simp [goodPair])
      | a :: b :: c :: rest => exact absurd hgood (by simp [goodPair])
      | [a, b] =>
        subst hfp
        simp only [toFacet]
        exact List.elem_iff

/-- Instantiation of `parse_tag_facets_spec` on a concrete fixture: first
array `[[401,120],["bad",5],[402,30]]` with filter `{402}` gives exactly two
facets, 401 unselected and 402 selected; the malformed pair is dropped. -/
theorem parse_tag_facets_spec_witness :
    parse_tag_facets
        (fun s =>
          if s = "[[401,120],[\"bad\",5],[402,30]]" then
            .ok [[.num 401, .num 120], [.str "bad", .num 5],
                 [.num 402, .num 30]]
          else .error "unexpected fragment")
        "stuff PopulateTagFacetData( [[401,120],[\"bad\",5],[402,30]], [9] )"
        [402] =
      .ok [{ tagid := 401, count := 120, selected := false },
           { tagid := 402, count := 30, selected := true }] := by
  have h := ((parse_tag_facets_spec
      (fun s =>
        if s = "[[401,120],[\"bad\",5],[402,30]]" then
          Except.ok [[.num 401, .num 120], [.str "bad", .num 5],
               [.num 402, .num 30]]
        else Except.error "unexpected fragment")
      "stuff PopulateTagFacetData( [[401,120],[\"bad\",5],[402,30]], [9] )"
      [402]).2.2 "[[401,120],[\"bad\",5],[402,30]]" "[9]"
      [[.num 401, .num 120], [.str "bad", .num 5], [.num 402, .num 30]]
      (by rfl) (by rfl)).1
  exact h.trans (by rfl)

/-! ## Search-row extraction theorems (C5) -/

/-- Spec-side predicate: the row anchor carries a parsable numeric id
attribute. -/
def rowHasId (r : RowElem) : Bool := ((r.attr_appid).bind parseI64).isSome

/-- Spec-side title: the text of the first title sub-element, trimmed, `"Unknown"`
when absent or empty. -/
def rowName (r : RowElem) : String :=
  ((r.title.map (fun ts => rustTrim (String.join ts))).filter
    (fun s => s ≠ "")).getD "Unknown"

/-- Spec-side search item built from a row with a parsable id. -/
def rowItem (r : RowElem) : SearchItem :=
  { appid := ((r.attr_appid).bind parseI64).getD 0
    name := rowName r
    price := (r.price.map (fun ts => collapseWs (String.join ts))).filter
      (fun s => s ≠ "") }

lemma extract_row_eq (r : RowElem) :
    extract_row r = if rowHasId r then some (rowItem r) else none := by
  unfold extract_row
  cases h1 : r.attr_appid with
  | none => simp [rowHasId, h1]
  | some raw =>
    cases h2 : parseI64 raw with
    | none => simp [rowHasId, h1, h2]
    | some appid => simp [rowHasId, rowItem, rowName, h1, h2]

/-- **C5**  `parse_search_html` produces one `SearchItem` per result-row
anchor carrying a parsable numeric id attribute, silently skipping anchors
without one; a row whose title is absent or trims to empty gets the name
`"Unknown"` instead of failing; and when zero rows were extracted from the
whole document the call fails with `UpstreamSchema` rather than returning an
empty success. -/
theorem parse_search_html_rows_spec :
    ∀ (serdeParse : String → Except String (List (List Value)))
      (html : String) (rows : List RowElem) (tags : List Int),
      (extract_rows rows = (rows.filter rowHasId).map rowItem) ∧
      (∀ r : RowElem,
        (r.title = none ∨ ∃ ts, r.title = some ts ∧ rustTrim (String.join ts) = "") →
        rowName r = "Unknown") ∧
      (extract_rows rows = [] →
        parse_search_html serdeParse html rows tags false =
          .error (.upstreamSchema
            "no search_result_row entries found in store response")) ∧
      (extract_rows rows ≠ [] →
        parse_search_html serdeParse html rows tags false =
          .ok (extract_rows rows, none)) := by
  intro serdeParse html rows tags
  refine ⟨filterMap_eq_filter_map _ _ _ extract_row_eq rows, ?_, ?_, ?_⟩
  · intro r hr
    rcases hr with h | ⟨ts, hts, hempty⟩
    · simp [rowName, h]
    · simp [rowName, hts, hempty, Option.filter]
  · intro h
    simp [parse_search_html, h]
  · intro h
    simp [parse_search_html, List.isEmpty_iff, h]

/-- Instantiation of `parse_search_html_rows_spec`: a fixture with three
valid rows (one with an empty title, one with a price needing whitespace
collapsing) and one decorative anchor without an id yields exactly those
three rows; a fixture with only the decorative anchor fails with
`UpstreamSchema`. -/
theorem parse_search_html_rows_spec_witness :
    parse_search_html (fun _ => .error "unused") ""
        [⟨some "10", some ["Portal"], none⟩,
         ⟨some "20", some ["  "], none⟩,
         ⟨some "30", none, some [" $9", ".99 "]⟩,
         ⟨none, some ["decorative"], none⟩] [] false =
      .ok ([{ appid := 10, name := "Portal", price := none },
            { appid := 20, name := "Unknown", price := none },
            { appid := 30, name := "Unknown", price := some "$9.99" }], none) ∧
    parse_search_html (fun _ => .error "unused") ""
        [⟨none, some ["decorative"], none⟩] [] false =
      .error (.upstreamSchema
        "no search_result_row entries found in store response") :=
  ⟨((parse_search_html_rows_spec (fun _ => .error "unused") ""
      [⟨some "10", some ["Portal"], none⟩,
       ⟨some "20", some ["  "], none⟩,
       ⟨some "30", none, some [" $9", ".99 "]⟩,
       ⟨none, some ["decorative"], none⟩] []).2.2.2
      (by decide)).trans (by rfl),
   (parse_search_html_rows_spec (fun _ => .error "unused") ""
      [⟨none, some ["decorative"], none⟩] []).2.2.1 rfl⟩

/-! ## `find_dict` fallback theorems (C4) -/

lemma find_dict_fallback_eq
    (fts : String → Except AppError (List (String × String × Float)))
    (table : List Row) (query : String) (limit offset : Nat)
    (h : to_fts_query query = "" ∨ fts (to_fts_query query) = .ok []) :
    find_dict fts table query limit offset =
      .ok (fallback_find table query limit offset) := by
  by_cases hq : to_fts_query query = ""
  · simp [find_dict, hq]
  · rcases h with h | h
    · exact absurd h hq
    · simp [find_dict, hq, h]

/-- **C4**  Whenever the full-text step contributes zero rows — including
the case of an all-punctuation query whose normalized full-text query is
empty, which raises no error — `find_dict` answers from the substring
fallback: the query is lower-cased and stripped to alphanumerics and matched
as a substring of the stored name with hyphens and spaces stripped, the
returned rows are in ascending name order and all carry the sentinel rank
`1000.0`, and the returned total counts every table row matching the
fallback predicate, not just the returned page. -/
theorem find_dict_fallback_spec :
    ∀ (fts : String → Except AppError (List (String × String × Float)))
      (table : List Row) (query : String) (limit offset : Nat),
      (to_fts_query query = "" ∨ fts (to_fts_query query) = .ok []) →
      ∃ out, find_dict fts table query limit offset =
          .ok (out, (table.filter (fallbackMatch query)).length) ∧
        (∀ item ∈ out, item.rank = 1000.0) ∧
        List.Pairwise (fun a b : DictFindItem => strLe a.name b.name = true) out ∧
        (∀ item ∈ out, ∃ r, r ∈ table ∧ fallbackMatch query r = true ∧
          item.id = r.id ∧ item.name = r.name) := by
  intro fts table query limit offset h
  refine ⟨(fallback_find table query limit offset).1, ?_, ?_, ?_, ?_⟩
  · rw [find_dict_fallback_eq fts table query limit offset h]
    rfl
  · intro item hitem
    obtain ⟨r, _, hr⟩ := List.mem_map.mp hitem
    rw [← hr]
  · exact List.pairwise_map.mpr
      ((sortByName_sorted _).sublist (page_sublist _ limit offset))
  · intro item hitem
    obtain ⟨r, hrmem, hr⟩ := List.mem_map.mp hitem
    have hmem : r ∈ table.filter (fallbackMatch query) :=
      (sortByName_perm _).subset ((page_sublist _ limit offset).subset hrmem)
    exact ⟨r, (List.mem_filter.mp hmem).1, (List.mem_filter.mp hmem).2,
      by rw [← hr], by rw [← hr]⟩

/-- Instantiation of `find_dict_fallback_spec`: an all-punctuation query
(empty normalized full-text query) matches every row and raises no error,
and a hyphen-insensitive query with zero full-text hits finds its row by
substring with rank 1000.0 and full count. -/
theorem find_dict_fallback_spec_witness :
    (to_fts_query "!!" = "") ∧
    (∃ out, find_dict (fun _ => .error (.database "boom"))
        [⟨"1", "Co-op"⟩, ⟨"2", "Action"⟩] "!!" 10 0 = .ok (out, 2) ∧
      ∀ item ∈ out, item.rank = 1000.0) ∧
    ((fun _ : String =>
        (.ok [] : Except AppError (List (String × String × Float))))
          (to_fts_query "coop") = .ok []) ∧
    (∃ out, find_dict
        (fun _ => (.ok [] : Except AppError (List (String × String × Float))))
        [⟨"1", "Co-op"⟩, ⟨"2", "Action"⟩] "coop" 10 0 = .ok (out, 1) ∧
      ∀ item ∈ out, item.rank = 1000.0) :=
  ⟨rfl,
   (by
     obtain ⟨out, hout, hrank, _, _⟩ := find_dict_fallback_spec
       (fun _ => .error (.database "boom"))
       [⟨"1", "Co-op"⟩, ⟨"2", "Action"⟩] "!!" 10 0 (Or.inl rfl)
     exact ⟨out, hout, hrank⟩),
   rfl,
   (by
     obtain ⟨out, hout, hrank, _, _⟩ := find_dict_fallback_spec
       (fun _ => (.ok [] : Except AppError (List (String × String × Float))))
       [⟨"1", "Co-op"⟩, ⟨"2", "Action"⟩] "coop" 10 0 (Or.inr rfl)
     exact ⟨out, hout, hrank⟩)⟩

end SteamCli
